import Mathlib

/-!
Shallow embedding of `src/lib.rs` of the substreams ERC-721 / token-discovery
module, together with theorems checking the specification's claims.

The embedding follows the Rust source line by line:
* `map_transfers` (lib.rs lines 19-37) over the typed transfer events of the
  tracked contract,
* `store_transfers` / `generate_key` (lib.rs lines 40-58) as the list of
  additive-store applications it issues, in order,
* `map_tokens` (lib.rs lines 62-199) with its candidate classification
  cascade, its staged RPC batches and its response indexing.  Rust `Vec`
  indexing `v[i]` is modelled by the partial list index `l[i]?` with `none` signalling the
  out-of-bounds panic; short-circuiting of `&&` / `||` is preserved where it
  guards an indexing operation.

External collaborators that lib.rs uses but whose code is not part of the
source (the substreams host store, the RPC gateway, the ABI decoders declared
in `mod eth_utils` / `mod rpc_utils`, the typed event iterator) are modelled
at their interface, from the spec, and marked as such in their doc comments.
-/

set_option maxRecDepth 100000

namespace Substreams

/-- A byte, as in Rust `u8`. -/
abbrev Byte := Fin 256

/-- lib.rs line 14: the tracked (Bored Ape) contract address. -/
def TRACKED_CONTRACT : List Byte :=
  [0xbc, 0x4c, 0xa0, 0xed, 0xa7, 0x64, 0x7a, 0x8a, 0xb7, 0xc2,
   0x06, 0x1c, 0x2e, 0x11, 0x8a, 0x18, 0xa9, 0x36, 0xf1, 0x3d]

/-- `substreams_ethereum::NULL_ADDRESS`: the all-zero 20-byte address. -/
def NULL_ADDRESS : List Byte := List.replicate 20 0

/-- Lowercase hex rendering of a byte list, as Rust `Hex(bytes)` formats it:
two hex digits per byte, most significant digit first. -/
def hexBytes (bs : List Byte) : List Char :=
  bs.flatMap fun b => [Nat.digitChar (b.val / 16), Nat.digitChar (b.val % 16)]

/-- `Hex(bytes).to_string()` as a Lean `String`. -/
def hexStr (bs : List Byte) : String := ⟨hexBytes bs⟩

/-- lib.rs lines 56-58: the ledger key for a holder,
`format!("total:{}:{}", Hex(holder), Hex(TRACKED_CONTRACT))`. -/
def generate_key (holder : List Byte) : String :=
  "total:" ++ hexStr holder ++ ":" ++ hexStr TRACKED_CONTRACT

/-- `pb::erc721::Transfer` as produced by `map_transfers`. -/
structure Transfer where
  trx_hash : List Byte
  «from» : List Byte
  «to» : List Byte
  token_id : Nat
  ordinal : Nat
  deriving DecidableEq, Repr

/-- Modelled from the spec: a typed transfer event of the tracked contract, as
delivered by the (out-of-src) ABI event iterator `blk.events::<Transfer>`. -/
structure TransferEvent where
  «from» : List Byte
  «to» : List Byte
  token_id : Nat
  deriving DecidableEq, Repr

/-- Modelled from the spec: the log view paired with each typed event by the
event iterator, exposing the receipt's transaction hash and the event's
position in the block's log sequence (`log.block_index()`). -/
structure LogView where
  trx_hash : List Byte
  block_index : Nat
  deriving DecidableEq, Repr

/-- Modelled from the spec: `BigInt::to_u64`, the documented lossy narrowing
of the wide on-chain token id to 64 bits. -/
def toU64 (n : Nat) : Nat := n % 2 ^ 64

/-- The closure of lib.rs lines 24-33: one output record per event. -/
def transfer_of_event (e : TransferEvent) (l : LogView) : Transfer :=
  { trx_hash := l.trx_hash
    «from» := e.«from»
    «to» := e.«to»
    token_id := toU64 e.token_id
    ordinal := l.block_index }

/-- lib.rs lines 19-37: `map_transfers`, over the block's matched events. -/
def map_transfers (events : List (TransferEvent × LogView)) :
    Except String (List Transfer) :=
  Except.ok (events.map fun p => transfer_of_event p.1 p.2)

/-- One application to the additive store: the arguments of one
`s.add(ordinal, key, delta)` call. -/
structure StoreApp where
  ordinal : Nat
  key : String
  delta : Int
  deriving DecidableEq, Repr

/-- lib.rs lines 43-53, body of the `for` loop of `store_transfers`: the
applications issued for one transfer, in issue order. -/
def transferApps (t : Transfer) : List StoreApp :=
  (if t.«from» ≠ NULL_ADDRESS then [⟨t.ordinal, generate_key t.«from», -1⟩] else [])
    ++ (if t.«to» ≠ NULL_ADDRESS then [⟨t.ordinal, generate_key t.«to», 1⟩] else [])

/-- lib.rs lines 40-54: `store_transfers`, as the ordered list of additive
store applications it issues. -/
def store_transfers (transfers : List Transfer) : List StoreApp :=
  transfers.flatMap transferApps

/-- Modelled from the spec: the state of the host's additive store
(`StoreAddInt64`), one 64-bit signed accumulator per key. -/
def StoreState := String → Int

/-- Modelled from the spec: the store's only mutation primitive, `add delta to
the current value of key`. -/
def storeAdd (s : StoreState) (a : StoreApp) : StoreState :=
  fun k => if k = a.key then s k + a.delta else s k

/-- Modelled from the spec: applying a sequence of additive applications to
the store, in sequence order. -/
def applyAll (s : StoreState) (apps : List StoreApp) : StoreState :=
  apps.foldl storeAdd s

/-- lib.rs line 60: the 4-byte proxy-initialization selector. -/
def INITIALIZE_METHOD_HASH : List Byte := [0x14, 0x59, 0x45, 0x7a]

/-- `sf.ethereum.type.v2 CallType::CALL as i32`. -/
def CALLTYPE_CALL : Int := 1

/-- `sf.ethereum.type.v2 CallType::CREATE as i32`. -/
def CALLTYPE_CREATE : Int := 5

/-- One code-change record of a call, carrying the newly installed code. -/
structure CodeChange where
  new_code : List Byte
  deriving DecidableEq, Repr

/-- One call of a transaction's call tree, with the fields lib.rs reads. -/
structure Call where
  call_type : Int
  state_reverted : Bool
  input : List Byte
  code_changes : List CodeChange
  caller : List Byte
  address : List Byte
  deriving DecidableEq, Repr

/-- One transaction trace, with the field lib.rs reads. -/
structure TransactionTrace where
  calls : List Call
  deriving DecidableEq, Repr

/-- lib.rs line 111: the first excluded factory caller address. -/
def KNOWN_CALLER_1 : List Byte :=
  [0x00, 0x00, 0x00, 0x00, 0x00, 0x00, 0x49, 0x46, 0xc0, 0xe9,
   0xf4, 0x3f, 0x4d, 0xee, 0x60, 0x7b, 0x0e, 0xf1, 0xfa, 0x1c]

/-- lib.rs line 112: the second excluded factory caller address. -/
def KNOWN_CALLER_2 : List Byte :=
  [0x00, 0x00, 0x00, 0x00, 0x68, 0x7f, 0x5b, 0x66, 0x63, 0x88,
   0x56, 0x39, 0x6b, 0xee, 0x28, 0xc1, 0xdb, 0x01, 0x78, 0xd1]

/-- Rust slice `l[lo..hi]`: `none` models the panic when the range is out of
bounds. -/
def sliceGet (l : List α) (lo hi : Nat) : Option (List α) :=
  if lo ≤ hi ∧ hi ≤ l.length then some ((l.drop lo).take (hi - lo)) else none

/-- lib.rs line 73, the short-circuited condition
`call_input_len < 4 || call.input[0..4] != INITIALIZE_METHOD_HASH`:
`some b` is the value of the condition, `none` the slicing panic. -/
def selector_mismatch (input : List Byte) : Option Bool :=
  if input.length < 4 then some true
  else
    match sliceGet input 0 4 with
    | none => none
    | some s => some (decide (s ≠ INITIALIZE_METHOD_HASH))

/-- lib.rs lines 82-85: the summed byte length of the call's new-code
records. -/
def code_change_len (c : Call) : Nat :=
  (c.code_changes.map fun cc => cc.new_code.length).sum

/-- Outcome of the candidate-classification cascade of lib.rs lines 67-116
for one call. -/
inductive CallDecision where
  | notCandidate
  | skipReverted
  | skipSelector
  | skipSize
  | skipKnownCaller
  | candidate
  deriving DecidableEq, Repr

/-- lib.rs lines 67-116: the classification cascade, in source order
(reverted, call-kind gate, selector check, size check, known-caller check).
`none` models a panic inside the cascade (the slicing of line 73). -/
def classify_call (c : Call) : Option CallDecision :=
  if c.state_reverted then some CallDecision.skipReverted
  else if c.call_type = CALLTYPE_CREATE ∨ c.call_type = CALLTYPE_CALL then
    match (if c.call_type = CALLTYPE_CALL then selector_mismatch c.input else some false) with
    | none => none
    | some true => some CallDecision.skipSelector
    | some false =>
      if c.call_type = CALLTYPE_CREATE ∧ code_change_len c ≤ 150 then
        some CallDecision.skipSize
      else if c.caller = KNOWN_CALLER_1 ∨ c.caller = KNOWN_CALLER_2 then
        some CallDecision.skipKnownCaller
      else some CallDecision.candidate
  else some CallDecision.notCandidate

/-- Modelled from the spec: a method selector of `mod rpc_utils`
(`DECIMALS`, `NAME`, `SYMBOL`); only its identity matters here. -/
inductive Selector where
  | DECIMALS
  | NAME
  | SYMBOL
  deriving DecidableEq, Repr

/-- Modelled from the spec: the batch built by `rpc_utils::create_rpc_calls` —
one read-only call request per selector against the target address, in
selector order. -/
structure RpcBatch where
  address : List Byte
  selectors : List Selector
  deriving DecidableEq, Repr

/-- Modelled from the spec: `rpc_utils::create_rpc_calls`. -/
def create_rpc_calls (addr : List Byte) (sels : List Selector) : RpcBatch :=
  ⟨addr, sels⟩

/-- One per-request outcome of the gateway: `failed` flag and raw bytes. -/
structure RpcResponse where
  failed : Bool
  raw : List Byte
  deriving DecidableEq, Repr

/-- The external read-only call service `substreams_ethereum::rpc::eth_call`,
as an oracle from a batch to its list of responses. -/
abbrev Oracle := RpcBatch → List RpcResponse

/-- Modelled from the spec: the gateway contract — one result per request, in
request order; in particular as many responses as selectors. -/
def GatewayContract (o : Oracle) : Prop :=
  ∀ b : RpcBatch, (o b).length = b.selectors.length

/-- The type of `eth_utils::read_uint32` (not under src/): decode a payload
into a `u32` or fail. -/
abbrev ReadUint32 := List Byte → Except String Nat

/-- The type of `eth_utils::read_string` (not under src/): decode a payload
into a string or fail. -/
abbrev ReadString := List Byte → Except String String

/-- `pb::tokens::Token` as assembled by lib.rs lines 187-192. -/
structure Token where
  address : String
  name : String
  symbol : String
  decimals : Nat
  deriving DecidableEq, Repr

/-- Outcome of processing one call of the block in `map_tokens`: `crash` is a
Rust panic (out-of-bounds `Vec` index), `skip` a `continue` with no token,
`emit` a pushed token. -/
inductive ProcResult where
  | crash
  | skip
  | emit : Token → ProcResult
  deriving DecidableEq, Repr

/-- lib.rs lines 118-194: the RPC verification of one candidate call,
returning the batches issued (in issue order) and the outcome.  The response
indexing is exactly the source's: decimals from `response_decimal[0]`, the
failure check on `responses[0]`/`responses[1]`, the name decode from
`responses[1]` and the symbol decode from `responses[2]`. -/
def process_rpc (ru : ReadUint32) (rs : ReadString) (oracle : Oracle)
    (call : Call) : List RpcBatch × ProcResult :=
  match (oracle (create_rpc_calls call.address [Selector.DECIMALS]))[0]? with
  | none => ([create_rpc_calls call.address [Selector.DECIMALS]], ProcResult.crash)
  | some r0 =>
    if r0.failed then
      ([create_rpc_calls call.address [Selector.DECIMALS]], ProcResult.skip)
    else
      match ru r0.raw with
      | Except.error _ =>
        ([create_rpc_calls call.address [Selector.DECIMALS]], ProcResult.skip)
      | Except.ok decoded_decimals =>
        match (oracle (create_rpc_calls call.address
            [Selector.NAME, Selector.SYMBOL]))[0]? with
        | none =>
          ([create_rpc_calls call.address [Selector.DECIMALS],
            create_rpc_calls call.address [Selector.NAME, Selector.SYMBOL]],
           ProcResult.crash)
        | some s0 =>
          match (oracle (create_rpc_calls call.address
              [Selector.NAME, Selector.SYMBOL]))[1]? with
          | none =>
            ([create_rpc_calls call.address [Selector.DECIMALS],
              create_rpc_calls call.address [Selector.NAME, Selector.SYMBOL]],
             ProcResult.crash)
          | some s1 =>
            if s0.failed || s1.failed then
              ([create_rpc_calls call.address [Selector.DECIMALS],
                create_rpc_calls call.address [Selector.NAME, Selector.SYMBOL]],
               ProcResult.skip)
            else
              match rs s1.raw with
              | Except.error _ =>
                ([create_rpc_calls call.address [Selector.DECIMALS],
                  create_rpc_calls call.address [Selector.NAME, Selector.SYMBOL]],
                 ProcResult.skip)
              | Except.ok decoded_name =>
                match (oracle (create_rpc_calls call.address
                    [Selector.NAME, Selector.SYMBOL]))[2]? with
                | none =>
                  ([create_rpc_calls call.address [Selector.DECIMALS],
                    create_rpc_calls call.address [Selector.NAME, Selector.SYMBOL]],
                   ProcResult.crash)
                | some s2 =>
                  match rs s2.raw with
                  | Except.error _ =>
                    ([create_rpc_calls call.address [Selector.DECIMALS],
                      create_rpc_calls call.address [Selector.NAME, Selector.SYMBOL]],
                     ProcResult.skip)
                  | Except.ok decoded_symbol =>
                    ([create_rpc_calls call.address [Selector.DECIMALS],
                      create_rpc_calls call.address [Selector.NAME, Selector.SYMBOL]],
                     ProcResult.emit
                      { address := hexStr call.address
                        name := decoded_name
                        symbol := decoded_symbol
                        decimals := decoded_decimals })

/-- Processing of one call of the block: classification cascade, then — for a
surviving candidate — the RPC verification. -/
def process_call (ru : ReadUint32) (rs : ReadString) (oracle : Oracle)
    (c : Call) : List RpcBatch × ProcResult :=
  match classify_call c with
  | none => ([], ProcResult.crash)
  | some CallDecision.candidate => process_rpc ru rs oracle c
  | some _ => ([], ProcResult.skip)

/-- The loop of `map_tokens` over the block's calls, accumulating pushed
tokens; `none` models a panic aborting the block. -/
def run_calls (ru : ReadUint32) (rs : ReadString) (oracle : Oracle) :
    List Call → List Token → Option (List Token)
  | [], acc => some acc
  | c :: rest, acc =>
    match process_call ru rs oracle c with
    | (_, ProcResult.crash) => none
    | (_, ProcResult.skip) => run_calls ru rs oracle rest acc
    | (_, ProcResult.emit t) => run_calls ru rs oracle rest (acc ++ [t])

/-- lib.rs lines 62-199: `map_tokens` over a block's transaction traces;
`some tokens` is the `Ok(Tokens)` result, `none` a panic. -/
def map_tokens (ru : ReadUint32) (rs : ReadString) (oracle : Oracle)
    (blk : List TransactionTrace) : Option (List Token) :=
  run_calls ru rs oracle (blk.flatMap TransactionTrace.calls) []

/-! ### Concrete fixtures for the counterexample / failing-input theorems -/

/-- A concrete candidate address. -/
def addr0 : List Byte := List.replicate 20 0x11

/-- A concrete caller address distinct from both excluded factory callers. -/
def caller0 : List Byte := List.replicate 20 0x22

/-- A concrete non-reverted creation call with 151 bytes of installed code:
it survives the whole classification cascade. -/
def call0 : Call :=
  { call_type := CALLTYPE_CREATE
    state_reverted := false
    input := []
    code_changes := [⟨List.replicate 151 0⟩]
    caller := caller0
    address := addr0 }

/-- A fixed successful response per selector, with distinct raw payloads. -/
def respFor : Selector → RpcResponse
  | Selector.DECIMALS => ⟨false, [0]⟩
  | Selector.NAME => ⟨false, [1]⟩
  | Selector.SYMBOL => ⟨false, [2]⟩

/-- A concrete oracle answering every request of a batch successfully — it
satisfies the gateway contract by construction. -/
def oracle0 : Oracle := fun b => b.selectors.map respFor

/-- A concrete uint32 decoder succeeding on the decimals payload. -/
def ru0 : ReadUint32 := fun raw =>
  if raw = [0] then Except.ok 18 else Except.error "bad uint32"

/-- A concrete string decoder succeeding on both the name and the symbol
payloads. -/
def rs0 : ReadString := fun raw =>
  if raw = [1] then Except.ok "SomeName"
  else if raw = [2] then Except.ok "SYM"
  else Except.error "bad string"

/-! ### Injectivity of the ledger key -/

lemma digitChar_inj16 :
    ∀ a b : Fin 16, Nat.digitChar a.val = Nat.digitChar b.val → a = b := by
  decide

lemma hexByte_inj (a b : Byte)
    (h1 : Nat.digitChar (a.val / 16) = Nat.digitChar (b.val / 16))
    (h2 : Nat.digitChar (a.val % 16) = Nat.digitChar (b.val % 16)) : a = b := by
  have ha := a.isLt
  have hb := b.isLt
  have hd : a.val / 16 = b.val / 16 := by
    have := digitChar_inj16 ⟨a.val / 16, by omega⟩ ⟨b.val / 16, by omega⟩ h1
    exact congrArg Fin.val this
  have hm : a.val % 16 = b.val % 16 := by
    have := digitChar_inj16 ⟨a.val % 16, by omega⟩ ⟨b.val % 16, by omega⟩ h2
    exact congrArg Fin.val this
  exact Fin.ext (by omega)

lemma hexBytes_inj : ∀ a b : List Byte, hexBytes a = hexBytes b → a = b
  | [], [], _ => rfl
  | [], _ :: _, h => by simp [hexBytes] at h
  | _ :: _, [], h => by simp [hexBytes] at h
  | c :: cs, d :: ds, h => by
    have h' : Nat.digitChar (c.val / 16) :: Nat.digitChar (c.val % 16) :: hexBytes cs
        = Nat.digitChar (d.val / 16) :: Nat.digitChar (d.val % 16) :: hexBytes ds := by
      simpa [hexBytes] using h
    have h1 := (List.cons.injEq _ _ _ _).mp h'
    have h2 := (List.cons.injEq _ _ _ _).mp h1.2
    have hcd : c = d := hexByte_inj c d h1.1 h2.1
    have hrest : cs = ds := hexBytes_inj cs ds h2.2
    rw [hcd, hrest]

lemma hexStr_inj (a b : List Byte) (h : hexStr a = hexStr b) : a = b :=
  hexBytes_inj a b (congrArg String.data h)

lemma generate_key_inj (h1 h2 : List Byte)
    (h : generate_key h1 = generate_key h2) : h1 = h2 := by
  have hd : "total:".data ++ hexBytes h1 ++ ":".data ++ hexBytes TRACKED_CONTRACT
      = "total:".data ++ hexBytes h2 ++ ":".data ++ hexBytes TRACKED_CONTRACT := by
    have := congrArg String.data h
    simpa [generate_key, String.data_append, hexStr] using this
  have hmid : hexBytes h1 = hexBytes h2 := by
    have step1 := List.append_cancel_right hd
    have step2 := List.append_cancel_right step1
    exact List.append_cancel_left step2
  exact hexBytes_inj h1 h2 hmid

/-! ### Claim theorems -/

/-- Claim C1: the claim says the emitted token's name is decoded from the response
at request index 0 of the two-request name/symbol batch and its symbol from
index 1, the gateway returning one result per request in request order.  The
code instead decodes the name from `responses[1]` — which, under the gateway
contract, is the response to the symbol request — and reads the symbol from
`responses[2]`, an index that does not exist in a two-response batch: on a
candidate whose calls and decodes all succeed, processing hits the
out-of-bounds index and panics instead of emitting a token with the claimed
field sources. -/
theorem C1_name_symbol_index_bug :
    GatewayContract oracle0 ∧
    (oracle0 (create_rpc_calls addr0 [Selector.NAME, Selector.SYMBOL]))[1]?
      = some ⟨false, [2]⟩ ∧
    rs0 [2] = Except.ok "SYM" ∧
    (process_call ru0 rs0 oracle0 call0).2 = ProcResult.crash := by
  refine ⟨fun b => ?_, rfl, rfl, by decide⟩
  simp [oracle0]

/-- Claim C2: the claim says `map_tokens` handles every candidate without
panicking, never indexes a response list out of bounds and returns a result
for every block.  On a block holding one fully-successful candidate, with an
oracle satisfying the gateway contract, `map_tokens` indexes the two-element
name/symbol response list at index 2 and panics, producing no result for the
block. -/
theorem C2_block_abort_bug :
    GatewayContract oracle0 ∧
    map_tokens ru0 rs0 oracle0 [⟨[call0]⟩] = none := by
  refine ⟨fun b => ?_, by decide⟩
  simp [oracle0]

/-- Claim C3: the claim says a token is emitted iff all three read-only calls and
all three decodes succeed.  Here all calls of both batches succeed and the
decoders succeed on every returned payload (`[0]`, `[1]`, `[2]`), yet no
token is emitted for the candidate: the code panics at `responses[2]`
instead. -/
theorem C3_all_steps_succeed_no_token :
    (ru0 [0]).isOk = true ∧
    (rs0 [1]).isOk = true ∧
    (rs0 [2]).isOk = true ∧
    (∀ r ∈ oracle0 (create_rpc_calls addr0 [Selector.DECIMALS]),
      r.failed = false) ∧
    (∀ r ∈ oracle0 (create_rpc_calls addr0 [Selector.NAME, Selector.SYMBOL]),
      r.failed = false) ∧
    (∀ t : Token, (process_call ru0 rs0 oracle0 call0).2 ≠ ProcResult.emit t) := by
  refine ⟨rfl, rfl, rfl, by decide, by decide, fun t h => ?_⟩
  have hc : (process_call ru0 rs0 oracle0 call0).2 = ProcResult.crash := by decide
  rw [hc] at h
  exact ProcResult.noConfusion h

/-- Claim C4: a transfer from the null address issues no debit (−1) application, a
transfer to the null address issues no credit (+1) application, and each
non-null party receives its corresponding application, carrying the
transfer's ordinal. -/
theorem C4_null_address_mint_burn (t : Transfer) :
    (t.«from» = NULL_ADDRESS → ∀ a ∈ transferApps t, a.delta ≠ -1) ∧
    (t.«to» = NULL_ADDRESS → ∀ a ∈ transferApps t, a.delta ≠ 1) ∧
    (t.«from» ≠ NULL_ADDRESS →
      (⟨t.ordinal, generate_key t.«from», -1⟩ : StoreApp) ∈ transferApps t) ∧
    (t.«to» ≠ NULL_ADDRESS →
      (⟨t.ordinal, generate_key t.«to», 1⟩ : StoreApp) ∈ transferApps t) := by
  unfold transferApps
  by_cases hf : t.«from» = NULL_ADDRESS <;> by_cases ht : t.«to» = NULL_ADDRESS <;>
    simp [hf, ht]

/-- A concrete non-null holder address. -/
def addrA : List Byte := 0x01 :: List.replicate 19 0

/-- A second concrete non-null holder address, distinct from `addrA`. -/
def addrB : List Byte := 0x02 :: List.replicate 19 0

/-- A concrete mint: `from` is the null address, `to` is `addrA`. -/
def t_mint : Transfer := ⟨[0xaa], NULL_ADDRESS, addrA, 1, 5⟩

theorem C4_null_address_mint_burn_witness :
    (∀ a ∈ transferApps t_mint, a.delta ≠ -1) ∧
    (⟨5, generate_key addrA, 1⟩ : StoreApp) ∈ transferApps t_mint :=
  ⟨(C4_null_address_mint_burn t_mint).1 rfl,
   (C4_null_address_mint_burn t_mint).2.2.2 (by decide)⟩

/-- A concrete self-transfer: both parties are the same non-null address. -/
def t_self : Transfer := ⟨[0xbb], addrA, addrA, 2, 9⟩

/-- Claim C5 counterexample: for a self-transfer — both parties non-null and
equal — the ledger does receive exactly two applications, but they land on
one and the same key, not on two different keys as the claim states. -/
theorem C5_counterexample_self_transfer :
    t_self.«from» ≠ NULL_ADDRESS ∧ t_self.«to» ≠ NULL_ADDRESS ∧
    (transferApps t_self).length = 2 ∧
    ∀ a1 ∈ transferApps t_self, ∀ a2 ∈ transferApps t_self, a1.key = a2.key := by
  decide

/-- Claim C5 as amended: a transfer with both parties non-null issues exactly two
applications — a −1 on the `from` key then a +1 on the `to` key — and these
are on two different keys whenever `from ≠ to` (a self-transfer puts both on
the same key). -/
theorem C5_two_applications (t : Transfer)
    (hf : t.«from» ≠ NULL_ADDRESS) (ht : t.«to» ≠ NULL_ADDRESS) :
    transferApps t
      = [⟨t.ordinal, generate_key t.«from», -1⟩,
         ⟨t.ordinal, generate_key t.«to», 1⟩] ∧
    (t.«from» ≠ t.«to» → generate_key t.«from» ≠ generate_key t.«to») := by
  constructor
  · simp [transferApps, hf, ht]
  · intro hne heq
    exact hne (generate_key_inj _ _ heq)

/-- A concrete transfer between two distinct non-null holders. -/
def t_move : Transfer := ⟨[0xcc], addrA, addrB, 3, 11⟩

theorem C5_two_applications_witness :
    transferApps t_move
      = [⟨11, generate_key addrA, -1⟩, ⟨11, generate_key addrB, 1⟩] ∧
    generate_key addrA ≠ generate_key addrB := by
  have h := C5_two_applications t_move (by decide) (by decide)
  exact ⟨h.1, h.2 (by decide)⟩

/-- Claim C6: for a non-reverted creation call, the size check discards the
candidate exactly when the summed length of its new-code records is ≤ 150;
with a sum of 151 or more the candidate survives the size check, reaching
either the known-caller check or full candidacy. -/
theorem C6_size_boundary (c : Call)
    (h1 : c.state_reverted = false) (h2 : c.call_type = CALLTYPE_CREATE) :
    (code_change_len c ≤ 150 → classify_call c = some CallDecision.skipSize) ∧
    (151 ≤ code_change_len c →
      classify_call c ≠ some CallDecision.skipSize ∧
      (classify_call c = some CallDecision.candidate ∨
       classify_call c = some CallDecision.skipKnownCaller)) := by
  have hne : ¬ (CALLTYPE_CREATE = CALLTYPE_CALL) := by decide
  have hcc : classify_call c =
      (if code_change_len c ≤ 150 then some CallDecision.skipSize
       else if c.caller = KNOWN_CALLER_1 ∨ c.caller = KNOWN_CALLER_2 then
         some CallDecision.skipKnownCaller
       else some CallDecision.candidate) := by
    simp [classify_call, h1, h2, hne]
  constructor
  · intro hle
    rw [hcc]
    simp [hle]
  · intro hge
    have hgt : ¬ code_change_len c ≤ 150 := by omega
    rw [hcc]
    simp only [hgt, if_false]
    split <;> simp

/-- A creation call installing exactly 150 bytes of code. -/
def call150 : Call :=
  { call_type := CALLTYPE_CREATE, state_reverted := false, input := []
    code_changes := [⟨List.replicate 100 0⟩, ⟨List.replicate 50 0⟩]
    caller := caller0, address := addr0 }

/-- A creation call installing exactly 151 bytes of code. -/
def call151 : Call :=
  { call_type := CALLTYPE_CREATE, state_reverted := false, input := []
    code_changes := [⟨List.replicate 100 0⟩, ⟨List.replicate 51 0⟩]
    caller := caller0, address := addr0 }

theorem C6_size_boundary_witness :
    classify_call call150 = some CallDecision.skipSize ∧
    (classify_call call151 ≠ some CallDecision.skipSize ∧
      (classify_call call151 = some CallDecision.candidate ∨
       classify_call call151 = some CallDecision.skipKnownCaller)) :=
  ⟨(C6_size_boundary call150 rfl rfl).1 (by decide),
   (C6_size_boundary call151 rfl rfl).2 (by decide)⟩

lemma selector_mismatch_eq (input : List Byte) :
    selector_mismatch input
      = some (decide ¬(4 ≤ input.length ∧ input.take 4 = INITIALIZE_METHOD_HASH)) := by
  unfold selector_mismatch sliceGet
  by_cases h : input.length < 4
  · have hn : ¬ (4 ≤ input.length ∧ input.take 4 = INITIALIZE_METHOD_HASH) := by
      intro hc
      omega
    simp [h, hn]
  · have h4 : (0:Nat) ≤ 4 ∧ 4 ≤ input.length := ⟨by omega, by omega⟩
    rw [if_neg h, if_pos h4]
    show some (decide ((input.drop 0).take (4 - 0) ≠ INITIALIZE_METHOD_HASH)) = _
    simp only [List.drop_zero, Nat.sub_zero]
    congr 1
    rw [decide_eq_decide]
    constructor
    · intro hne hc
      exact hne hc.2
    · intro hne hc
      exact hne ⟨by omega, hc⟩

/-- Claim C7: a non-reverted message call never makes the classification cascade
panic (the selector slice is guarded by the length test); it can become a
candidate only when its input holds at least 4 bytes whose first 4 equal the
proxy-initialization selector, and an input shorter than 4 bytes is always
dispatched as a selector mismatch (the call is skipped). -/
theorem C7_selector_guard (c : Call)
    (h1 : c.state_reverted = false) (h2 : c.call_type = CALLTYPE_CALL) :
    (classify_call c).isSome = true ∧
    (classify_call c = some CallDecision.candidate →
      4 ≤ c.input.length ∧ c.input.take 4 = INITIALIZE_METHOD_HASH) ∧
    (c.input.length < 4 → classify_call c = some CallDecision.skipSelector) := by
  have hne : ¬ (CALLTYPE_CALL = CALLTYPE_CREATE) := by decide
  by_cases hsel : 4 ≤ c.input.length ∧ c.input.take 4 = INITIALIZE_METHOD_HASH
  · have hcc : classify_call c =
        (if c.caller = KNOWN_CALLER_1 ∨ c.caller = KNOWN_CALLER_2 then
          some CallDecision.skipKnownCaller
         else some CallDecision.candidate) := by
      simp [classify_call, h1, h2, hne, selector_mismatch_eq, hsel]
    refine ⟨?_, fun _ => hsel, fun hlt => ?_⟩
    · rw [hcc]
      split <;> rfl
    · omega
  · have hcc : classify_call c = some CallDecision.skipSelector := by
      simp [classify_call, h1, h2, selector_mismatch_eq, hsel]
    refine ⟨by rw [hcc]; rfl, fun hcand => ?_, fun _ => hcc⟩
    rw [hcc] at hcand
    simp at hcand

/-- A message call with a 3-byte input: shorter than the selector. -/
def callShort : Call :=
  { call_type := CALLTYPE_CALL, state_reverted := false
    input := [0x14, 0x59, 0x45]
    code_changes := [], caller := caller0, address := addr0 }

theorem C7_selector_guard_witness :
    (classify_call callShort).isSome = true ∧
    classify_call callShort = some CallDecision.skipSelector :=
  ⟨(C7_selector_guard callShort rfl rfl).1,
   (C7_selector_guard callShort rfl rfl).2.2 (by decide)⟩

lemma process_rpc_spec (ru : ReadUint32) (rs : ReadString) (oracle : Oracle)
    (c : Call) :
    ((process_rpc ru rs oracle c).1
        = [create_rpc_calls c.address [Selector.DECIMALS]] ∨
     (process_rpc ru rs oracle c).1
        = [create_rpc_calls c.address [Selector.DECIMALS],
           create_rpc_calls c.address [Selector.NAME, Selector.SYMBOL]]) ∧
    ((process_rpc ru rs oracle c).1
        ≠ [create_rpc_calls c.address [Selector.DECIMALS]] →
      ∃ r0, (oracle (create_rpc_calls c.address [Selector.DECIMALS]))[0]?
            = some r0 ∧
        r0.failed = false ∧ (ru r0.raw).isOk = true) ∧
    (∀ t, (process_rpc ru rs oracle c).2 = ProcResult.emit t →
      (process_rpc ru rs oracle c).1
        = [create_rpc_calls c.address [Selector.DECIMALS],
           create_rpc_calls c.address [Selector.NAME, Selector.SYMBOL]]) := by
  unfold process_rpc
  split
  · exact ⟨Or.inl rfl, fun hne => absurd rfl hne, fun t ht => nomatch ht⟩
  · rename_i r0 h0
    split
    · exact ⟨Or.inl rfl, fun hne => absurd rfl hne, fun t ht => nomatch ht⟩
    · rename_i hf
      split
      · exact ⟨Or.inl rfl, fun hne => absurd rfl hne, fun t ht => nomatch ht⟩
      · rename_i dec hru
        have hffalse : r0.failed = false := by
          cases hfb : r0.failed
          · rfl
          · exact absurd hfb hf
        have hok : (ru r0.raw).isOk = true := by rw [hru]; rfl
        have hex : ∃ r, (oracle (create_rpc_calls c.address
            [Selector.DECIMALS]))[0]? = some r ∧ r.failed = false ∧
            (ru r.raw).isOk = true := ⟨r0, h0, hffalse, hok⟩
        split
        · exact ⟨Or.inr rfl, fun _ => hex, fun t ht => nomatch ht⟩
        · split
          · exact ⟨Or.inr rfl, fun _ => hex, fun t ht => nomatch ht⟩
          · split
            · exact ⟨Or.inr rfl, fun _ => hex, fun t ht => nomatch ht⟩
            · split
              · exact ⟨Or.inr rfl, fun _ => hex, fun t ht => nomatch ht⟩
              · split
                · exact ⟨Or.inr rfl, fun _ => hex, fun t ht => nomatch ht⟩
                · split
                  · exact ⟨Or.inr rfl, fun _ => hex, fun t ht => nomatch ht⟩
                  · exact ⟨Or.inr rfl, fun _ => hex, fun t _ => rfl⟩

/-- Claim C8: for any call, any oracle and any decoders, the batches issued are a
prefix of the staged sequence (none; just the decimals batch; or the decimals
batch followed by the name/symbol batch, in that order); the name/symbol
batch is issued only when the decimals batch was issued before it, its single
response reported success and its payload decoded as a uint32; and an emitted
token means exactly those two batches were issued in that order. -/
theorem C8_staged_batches (ru : ReadUint32) (rs : ReadString) (oracle : Oracle)
    (c : Call) :
    ((process_call ru rs oracle c).1 = [] ∨
     (process_call ru rs oracle c).1
        = [create_rpc_calls c.address [Selector.DECIMALS]] ∨
     (process_call ru rs oracle c).1
        = [create_rpc_calls c.address [Selector.DECIMALS],
           create_rpc_calls c.address [Selector.NAME, Selector.SYMBOL]]) ∧
    (create_rpc_calls c.address [Selector.NAME, Selector.SYMBOL]
        ∈ (process_call ru rs oracle c).1 →
      (process_call ru rs oracle c).1
        = [create_rpc_calls c.address [Selector.DECIMALS],
           create_rpc_calls c.address [Selector.NAME, Selector.SYMBOL]] ∧
      ∃ r0, (oracle (create_rpc_calls c.address [Selector.DECIMALS]))[0]?
            = some r0 ∧
        r0.failed = false ∧ (ru r0.raw).isOk = true) ∧
    (∀ t, (process_call ru rs oracle c).2 = ProcResult.emit t →
      (process_call ru rs oracle c).1
        = [create_rpc_calls c.address [Selector.DECIMALS],
           create_rpc_calls c.address [Selector.NAME, Selector.SYMBOL]]) := by
  unfold process_call
  cases hcl : classify_call c with
  | none =>
    exact ⟨Or.inl rfl, fun hmem => absurd hmem (by simp), fun t ht => nomatch ht⟩
  | some d =>
    cases d
    case candidate =>
      obtain ⟨hshape, hns, hemit⟩ := process_rpc_spec ru rs oracle c
      refine ⟨Or.inr hshape, ?_, hemit⟩
      intro hmem
      rcases hshape with h | h
      · rw [h] at hmem
        simp [create_rpc_calls] at hmem
      · exact ⟨h, hns (by rw [h]; simp [create_rpc_calls])⟩
    all_goals
      exact ⟨Or.inl rfl, fun hmem => absurd hmem (by simp), fun t ht => nomatch ht⟩

lemma applyAll_eq_sum (apps : List StoreApp) : ∀ (s : StoreState) (k : String),
    applyAll s apps k
      = s k + ((apps.filter fun a => a.key = k).map StoreApp.delta).sum := by
  induction apps with
  | nil => intro s k; simp [applyAll]
  | cons a as ih =>
    intro s k
    show applyAll (storeAdd s a) as k = _
    rw [ih (storeAdd s a) k]
    by_cases hk : a.key = k
    · simp [List.filter_cons, hk, storeAdd]
      omega
    · have hk' : ¬ k = a.key := fun h => hk h.symm
      simp [List.filter_cons, hk, hk', storeAdd]

theorem C8_staged_batches_witness :
    (process_call ru0 rs0 oracle0 call0).1
      = [create_rpc_calls call0.address [Selector.DECIMALS],
         create_rpc_calls call0.address [Selector.NAME, Selector.SYMBOL]] ∧
    ∃ r0, (oracle0 (create_rpc_calls call0.address [Selector.DECIMALS]))[0]?
        = some r0 ∧ r0.failed = false ∧ (ru0 r0.raw).isOk = true :=
  (C8_staged_batches ru0 rs0 oracle0 call0).2.1 (by decide)

/-- Claim C9: the additive store is commutative in its final per-key value — the
value at a key after a sequence of applications is the initial value plus the
arithmetic sum of the deltas applied to that key, and any permutation of the
application sequence yields the same final value; in particular this holds
for the application sequences produced by `store_transfers`. -/
theorem C9_commutative_sum (s : StoreState) (l1 l2 : List StoreApp)
    (k : String) (hp : l1.Perm l2) :
    applyAll s l1 k
      = s k + ((l1.filter fun a => a.key = k).map StoreApp.delta).sum ∧
    applyAll s l1 k = applyAll s l2 k ∧
    ∀ ts : List Transfer,
      applyAll s (store_transfers ts) k
        = s k + (((store_transfers ts).filter fun a => a.key = k).map
            StoreApp.delta).sum := by
  refine ⟨applyAll_eq_sum l1 s k, ?_, fun ts => applyAll_eq_sum _ s k⟩
  rw [applyAll_eq_sum l1 s k, applyAll_eq_sum l2 s k]
  have hperm : ((l1.filter fun a => a.key = k).map StoreApp.delta).Perm
      ((l2.filter fun a => a.key = k).map StoreApp.delta) :=
    (hp.filter _).map _
  rw [hperm.sum_eq]

/-- The empty initial store. -/
def sZero : StoreState := fun _ => 0

theorem C9_commutative_sum_witness :
    applyAll sZero (store_transfers [t_move]) (generate_key addrA)
      = sZero (generate_key addrA)
        + (((store_transfers [t_move]).filter
              fun a => a.key = generate_key addrA).map StoreApp.delta).sum ∧
    applyAll sZero (store_transfers [t_move]) (generate_key addrA)
      = applyAll sZero (store_transfers [t_move]).reverse (generate_key addrA) ∧
    ∀ ts : List Transfer,
      applyAll sZero (store_transfers ts) (generate_key addrA)
        = sZero (generate_key addrA)
          + (((store_transfers ts).filter
                fun a => a.key = generate_key addrA).map StoreApp.delta).sum :=
  C9_commutative_sum sZero (store_transfers [t_move])
    (store_transfers [t_move]).reverse (generate_key addrA)
    (List.reverse_perm _).symm

/-- Claim C10: the map over transfer events always returns the success variant, with one output
record per matched event, copying the transaction hash, the parties and the
(64-bit narrowed) token id, and setting the ordinal to the event's block
index. -/
theorem C10_transfers_total (events : List (TransferEvent × LogView)) :
    ∃ ts : List Transfer,
      map_transfers events = Except.ok ts ∧ ts.length = events.length ∧
      ∀ (i : Nat) (e : TransferEvent) (l : LogView), events[i]? = some (e, l) →
        ts[i]? = some
          { trx_hash := l.trx_hash, «from» := e.«from», «to» := e.«to»,
            token_id := toU64 e.token_id, ordinal := l.block_index } := by
  refine ⟨events.map fun p => transfer_of_event p.1 p.2, ?_, by simp, ?_⟩
  · rfl
  · intro i e l h
    rw [List.getElem?_map, h]
    rfl

/-- A concrete matched event with its log view. -/
def ev0 : TransferEvent := ⟨addrA, addrB, 42⟩

/-- The log view paired with `ev0`. -/
def lv0 : LogView := ⟨[0xdd], 3⟩

theorem C10_transfers_total_witness :
    ∃ ts : List Transfer, map_transfers [(ev0, lv0)] = Except.ok ts ∧
      ts[0]? = some ⟨[0xdd], addrA, addrB, toU64 42, 3⟩ := by
  obtain ⟨ts, h1, _, h3⟩ := C10_transfers_total [(ev0, lv0)]
  exact ⟨ts, h1, h3 0 ev0 lv0 rfl⟩

end Substreams
